import Mathlib

/-
Verification of the identifier detection and normalization core of the iga
repository (scheme registry, detection/normalization engine) and of its
exception hierarchy (iga/exceptions.py).

The engine works over plain character lists; identifiers are embedded as
`List Char` (the `.data` of a Lean `String`).
-/

namespace IGA

/-- Modelled from the spec: the enumerated identifier scheme tags of the
Scheme Registry (iga/id_utils.py is not in the source tree; §3 of the spec). -/
inductive Scheme
  | doi
  | arxiv
  | pmcid
  | orcid
  | ror
  | isbn
  | pmid
deriving DecidableEq

/-- Modelled from the spec: the fixed scheme priority order established at
Registry construction (doi, arxiv, pmcid, orcid, ror, isbn, pmid). -/
def priorityList : List Scheme :=
  [Scheme.doi, Scheme.arxiv, Scheme.pmcid, Scheme.orcid, Scheme.ror,
   Scheme.isbn, Scheme.pmid]

/-- Modelled from the spec: the rank of a scheme in the fixed priority order
(0 is the most structurally specific, 6 the most permissive). -/
def priorityIdx : Scheme → Nat
  | Scheme.doi => 0
  | Scheme.arxiv => 1
  | Scheme.pmcid => 2
  | Scheme.orcid => 3
  | Scheme.ror => 4
  | Scheme.isbn => 5
  | Scheme.pmid => 6

/-- Modelled from the spec: DOI grammar `10.<registrant>/<suffix>` with a
numeric registrant and a nonempty non-whitespace suffix. -/
def doiGrammar : List Char → Bool
  | '1' :: '0' :: '.' :: rest =>
    let reg := rest.takeWhile Char.isDigit
    let rem := rest.dropWhile Char.isDigit
    !reg.isEmpty &&
      (match rem with
       | '/' :: suf => !suf.isEmpty && suf.all (fun c => !c.isWhitespace)
       | _ => false)
  | _ => false

/-- Modelled from the spec: an optional arXiv version tail `vN`. -/
def versionTail : List Char → Bool
  | [] => true
  | 'v' :: ds => !ds.isEmpty && ds.all Char.isDigit
  | _ => false

/-- Modelled from the spec: the modern arXiv identifier form `YYMM.NNNNN`
(four or five digits after the dot) with optional version. -/
def arxivNew : List Char → Bool
  | a :: b :: c :: d :: '.' :: rest =>
    [a, b, c, d].all Char.isDigit &&
      (let n := rest.takeWhile Char.isDigit
       (n.length == 4 || n.length == 5) && versionTail (rest.dropWhile Char.isDigit))
  | _ => false

/-- Modelled from the spec: a character allowed in a legacy arXiv archive name. -/
def archChar (c : Char) : Bool := c.isLower || c == '-' || c == '.'

/-- Modelled from the spec: the legacy arXiv form `archive/YYMMNNN` with
optional version. -/
def arxivLegacy (r : List Char) : Bool :=
  let arch := r.takeWhile archChar
  !arch.isEmpty &&
    (match r.dropWhile archChar with
     | '/' :: num =>
       (num.takeWhile Char.isDigit).length == 7 &&
         versionTail (num.dropWhile Char.isDigit)
     | _ => false)

/-- Modelled from the spec: the arXiv grammar (modern or legacy form). -/
def arxivGrammar (r : List Char) : Bool := arxivNew r || arxivLegacy r

/-- Modelled from the spec: PMCID grammar, the label `PMC` case-insensitively
followed by a nonempty run of digits. -/
def pmcidGrammar : List Char → Bool
  | a :: b :: c :: ds =>
    a.toLower == 'p' && b.toLower == 'm' && c.toLower == 'c' &&
      !ds.isEmpty && ds.all Char.isDigit
  | _ => false

/-- Modelled from the spec: ORCID grammar, four hyphen-separated groups of
four digits, the final character allowing a terminal X. -/
def orcidGrammar : List Char → Bool
  | [a, b, c, d, '-', e, f, g, h, '-', i, j, k, l, '-', m, n, o, p] =>
    [a, b, c, d, e, f, g, h, i, j, k, l, m, n, o].all Char.isDigit &&
      (p.isDigit || p == 'X' || p == 'x')
  | _ => false

/-- Modelled from the spec: ROR grammar, `0` then six base32-like characters
then two check digits. -/
def rorGrammar : List Char → Bool
  | '0' :: rest =>
    rest.length == 8 && (rest.take 6).all (fun c => c.isDigit || c.isLower) &&
      (rest.drop 6).all Char.isDigit
  | _ => false

/-- Modelled from the spec: the hyphen-stripped core of an ISBN, either 13
digits or 9 digits plus a final digit or X. -/
def isbnCore (d : List Char) : Bool :=
  (d.length == 13 && d.all Char.isDigit) ||
    (d.length == 10 && (d.take 9).all Char.isDigit &&
      (match d.drop 9 with
       | [c] => c.isDigit || c == 'X' || c == 'x'
       | _ => false))

/-- Modelled from the spec: ISBN grammar, ISBN-10 or ISBN-13 including
optional hyphens. -/
def isbnGrammar (r : List Char) : Bool :=
  isbnCore (r.filter (fun c => c != '-'))

/-- Modelled from the spec: PMID grammar, a nonempty pure decimal numeral. -/
def pmidGrammar (r : List Char) : Bool := !r.isEmpty && r.all Char.isDigit

/-- Modelled from the spec: the recognition rule of each scheme descriptor,
applied to a pre-stripped candidate string. -/
def grammarOf : Scheme → List Char → Bool
  | Scheme.doi => doiGrammar
  | Scheme.arxiv => arxivGrammar
  | Scheme.pmcid => pmcidGrammar
  | Scheme.orcid => orcidGrammar
  | Scheme.ror => rorGrammar
  | Scheme.isbn => isbnGrammar
  | Scheme.pmid => pmidGrammar

/-- Modelled from the spec: the per-scheme list of known leading wrappings
(URL hosts and scheme labels) a candidate may carry, the empty wrapping
first; each is stripped case-insensitively before the grammar is tried. -/
def stripsOf : Scheme → List (List Char)
  | Scheme.doi =>
    [[], "doi:".data, "https://doi.org/".data, "http://doi.org/".data,
     "https://dx.doi.org/".data, "http://dx.doi.org/".data]
  | Scheme.arxiv => [[], "arxiv:".data]
  | Scheme.pmcid => [[], "pmcid:".data]
  | Scheme.orcid =>
    [[], "orcid:".data, "https://orcid.org/".data, "http://orcid.org/".data]
  | Scheme.ror => [[], "https://ror.org/".data, "http://ror.org/".data]
  | Scheme.isbn => [[], "isbn:".data]
  | Scheme.pmid => [[], "pmid:".data]

/-- Modelled from the spec: case-insensitively remove a known leading
wrapping `p` (stored lower-cased) from `s`, failing if `s` does not begin
with it. -/
def dropPrefCI : List Char → List Char → Option (List Char)
  | [], s => some s
  | _ :: _, [] => none
  | a :: p, b :: s => if a = b.toLower then dropPrefCI p s else none

/-- Modelled from the spec: try each known wrapping in order; succeed with
the remainder of the first wrapping whose removal leaves a string fully
consumed by the grammar `g`, so that no extraneous text survives. -/
def matchWith : List (List Char) → (List Char → Bool) → List Char → Option (List Char)
  | [], _, _ => none
  | p :: ps, g, t =>
    match dropPrefCI p t with
    | some r => if g r then some r else matchWith ps g t
    | none => matchWith ps g t

/-- Modelled from the spec: evaluate one scheme's stripping plus grammar
against a candidate, returning the grammar-consumed remainder on success. -/
def schemeRaw (s : Scheme) (t : List Char) : Option (List Char) :=
  matchWith (stripsOf s) (grammarOf s) t

/-- Modelled from the spec: does the candidate fully match this scheme after
stripping one of its known wrappings. -/
def schemeMatches (s : Scheme) (t : List Char) : Bool :=
  (schemeRaw s t).isSome

/-- Modelled from the spec: per-scheme canonicalization of a recognized
string: PMCID upper-cases the three-letter label, ISBN strips hyphens, all
other schemes keep the recognized string unchanged. -/
def post : Scheme → List Char → List Char
  | Scheme.pmcid, r =>
    match r with
    | _ :: _ :: _ :: ds => 'P' :: 'M' :: 'C' :: ds
    | _ => r
  | Scheme.isbn, r => r.filter (fun c => c != '-')
  | _, r => r

/-- Modelled from the spec: whitespace trimming applied to the raw candidate
before the registry is consulted. -/
def trimmed (l : List Char) : List Char :=
  ((l.dropWhile Char.isWhitespace).reverse.dropWhile Char.isWhitespace).reverse

/-- Modelled from the spec: the registry match set of a candidate, in the
fixed priority order. -/
def recognizeSet (c : List Char) : List Scheme :=
  priorityList.filter (fun s => schemeMatches s (trimmed c))

/-- Modelled from the spec: the single authoritative scheme of a candidate,
the highest-priority member of the match set, or `none` for Unrecognized. -/
def recognized_scheme (c : List Char) : Option Scheme :=
  (recognizeSet c).head?

/-- Modelled from the spec: the canonical form of a candidate, or the empty
string sentinel when the candidate is Unrecognized. -/
def detected_id (c : List Char) : List Char :=
  match recognized_scheme c with
  | some s =>
    match schemeRaw s (trimmed c) with
    | some r => post s r
    | none => []
  | none => []

/-- Modelled from the spec: the per-scheme convenience predicate, true
exactly when the scheme fully matches the trimmed candidate. -/
def containsScheme (s : Scheme) (c : List Char) : Bool :=
  schemeMatches s (trimmed c)

/-- Modelled from the spec: the `contains_pmcid` helper of the engine. -/
def contains_pmcid (c : List Char) : Bool :=
  containsScheme Scheme.pmcid c

/-- Modelled from the spec: the failure condition of the scheme-specific
normalizers. -/
inductive IdError
  | MalformedIdentifier
deriving DecidableEq

/-- Modelled from the spec: the scheme-specific normalizer, canonicalizing a
caller-asserted candidate and failing with `MalformedIdentifier` when the
candidate does not match the scheme's grammar. -/
def normalize (s : Scheme) (t : List Char) : Except IdError (List Char) :=
  match schemeRaw s t with
  | some r => Except.ok (post s r)
  | none => Except.error IdError.MalformedIdentifier

/-- Modelled from the spec: the `normalize_pmcid` normalizer of the engine. -/
def normalize_pmcid (t : List Char) : Except IdError (List Char) :=
  normalize Scheme.pmcid t

/-
Exception hierarchy, embedded from src/iga/exceptions.py.  `Exc` stands for
Python's builtin `Exception`; `ForeignError` stands for an exception class
defined outside of IGA (a direct subclass of the builtin `Exception`), used
to express that the IGA base class distinguishes IGA exceptions from others.
-/

/-- Exception classes relevant to iga/exceptions.py, plus the builtin root
and one foreign class. -/
inductive PyClass
  | Exc
  | IGAException
  | GitHubError
  | InvenioRDMError
  | MissingData
  | InternalError
  | ForeignError
deriving DecidableEq

/-- The direct superclass of each class, as declared in iga/exceptions.py. -/
def parentOf : PyClass → Option PyClass
  | PyClass.Exc => none
  | PyClass.IGAException => some PyClass.Exc
  | PyClass.GitHubError => some PyClass.IGAException
  | PyClass.InvenioRDMError => some PyClass.IGAException
  | PyClass.MissingData => some PyClass.IGAException
  | PyClass.InternalError => some PyClass.IGAException
  | PyClass.ForeignError => some PyClass.Exc

/-- The superclass chain of a class, fuel-bounded (the hierarchy has depth
at most three). -/
def ancestors : Nat → PyClass → List PyClass
  | 0, c => [c]
  | n + 1, c =>
    c :: (match parentOf c with
          | some p => ancestors n p
          | none => [])

/-- Python's `issubclass` over the embedded hierarchy. -/
def isSubclassOf (a b : PyClass) : Bool :=
  (ancestors 7 a).contains b

/-
Helper lemmas about the engine.
-/

/-- Filtering a list twice with the same predicate filters it once. -/
theorem filter_idem (p : Char → Bool) (l : List Char) :
    (l.filter p).filter p = l.filter p := by
  induction l with
  | nil => rfl
  | cons a t ih =>
    by_cases h : p a = true
    · simp [List.filter_cons, h, ih]
    · simp [List.filter_cons, h, ih]

/-- Soundness of wrapping-removal search: a successful match arises from one
of the listed wrappings, whose removal leaves a remainder fully consumed by
the grammar. -/
theorem matchWith_sound (ps : List (List Char)) (g : List Char → Bool)
    (t r : List Char) (h : matchWith ps g t = some r) :
    ∃ p, p ∈ ps ∧ dropPrefCI p t = some r ∧ g r = true := by
  induction ps with
  | nil => simp [matchWith] at h
  | cons p ps ih =>
    simp only [matchWith] at h
    split at h
    next u hd =>
      split at h
      next hg =>
        injection h with h
        subst h
        exact ⟨p, List.mem_cons_self _ _, hd, hg⟩
      next hg =>
        obtain ⟨q, hq, h1, h2⟩ := ih h
        exact ⟨q, List.mem_cons_of_mem _ hq, h1, h2⟩
    next hd =>
      obtain ⟨q, hq, h1, h2⟩ := ih h
      exact ⟨q, List.mem_cons_of_mem _ hq, h1, h2⟩

/-- A string already fully consumed by the grammar matches through the empty
wrapping, which every scheme lists first. -/
theorem matchWith_cons_empty (ps : List (List Char)) (g : List Char → Bool)
    (t : List Char) (h : g t = true) : matchWith ([] :: ps) g t = some t := by
  simp [matchWith, dropPrefCI, h]

/-- A grammar-valid string is recognized by its scheme as itself. -/
theorem schemeRaw_of_grammar (s : Scheme) (o : List Char)
    (hg : grammarOf s o = true) : schemeRaw s o = some o := by
  cases s <;> exact matchWith_cons_empty _ _ _ hg

/-- Canonicalization preserves grammar validity. -/
theorem grammar_post (s : Scheme) (r : List Char)
    (hg : grammarOf s r = true) : grammarOf s (post s r) = true := by
  cases s with
  | pmcid =>
    cases r with
    | nil => simp [grammarOf, pmcidGrammar] at hg
    | cons a r1 =>
      cases r1 with
      | nil => simp [grammarOf, pmcidGrammar] at hg
      | cons b r2 =>
        cases r2 with
        | nil => simp [grammarOf, pmcidGrammar] at hg
        | cons c ds =>
          simp only [grammarOf, pmcidGrammar, post, Bool.and_eq_true,
            beq_iff_eq] at hg ⊢
          exact ⟨⟨⟨⟨rfl, rfl⟩, rfl⟩, hg.1.2⟩, hg.2⟩
  | isbn =>
    simp only [grammarOf, isbnGrammar, post] at hg ⊢
    rw [filter_idem]
    exact hg
  | doi => exact hg
  | arxiv => exact hg
  | orcid => exact hg
  | ror => exact hg
  | pmid => exact hg

/-- Canonicalization is idempotent as a plain string transformation. -/
theorem post_post (s : Scheme) (r : List Char) :
    post s (post s r) = post s r := by
  cases s with
  | pmcid =>
    cases r with
    | nil => rfl
    | cons a r1 =>
      cases r1 with
      | nil => rfl
      | cons b r2 =>
        cases r2 with
        | nil => rfl
        | cons c ds => rfl
  | isbn => exact filter_idem _ _
  | doi => rfl
  | arxiv => rfl
  | orcid => rfl
  | ror => rfl
  | pmid => rfl

/-- Every scheme appears in the priority order. -/
theorem mem_priorityList (s : Scheme) : s ∈ priorityList := by
  cases s <;> decide

/-- A normalizer returns the canonical form of whatever the scheme's
stripping plus grammar recognized. -/
theorem normalize_of_raw (s : Scheme) (t u : List Char)
    (h : schemeRaw s t = some u) : normalize s t = Except.ok (post s u) := by
  unfold normalize
  rw [h]

/-- A normalizer fails exactly when the scheme recognizes nothing. -/
theorem normalize_of_raw_none (s : Scheme) (t : List Char)
    (h : schemeRaw s t = none) :
    normalize s t = Except.error IdError.MalformedIdentifier := by
  unfold normalize
  rw [h]

/-
Claims.
-/

/-- C1: for each pair (input, expected scheme) in the classification table
(arXiv:2012.13117v1 ↦ arxiv, 10.48550/arXiv.2012.13117 ↦ doi,
PMC4908318 ↦ pmcid, 26861819 ↦ pmid, 978-0982477373 ↦ isbn,
9780898714128 ↦ isbn), `recognized_scheme` returns the expected scheme. -/
theorem scheme_classification_table :
    recognized_scheme "arXiv:2012.13117v1".data = some Scheme.arxiv ∧
    recognized_scheme "10.48550/arXiv.2012.13117".data = some Scheme.doi ∧
    recognized_scheme "PMC4908318".data = some Scheme.pmcid ∧
    recognized_scheme "26861819".data = some Scheme.pmid ∧
    recognized_scheme "978-0982477373".data = some Scheme.isbn ∧
    recognized_scheme "9780898714128".data = some Scheme.isbn := by
  decide

/-- C2: detection gives no partial credit: every successful match consumes
the entire candidate as one known wrapping followed by a string fully
matching the scheme grammar; in particular
`detected_id "PMCID; PMC4908318" = ""` while
`detected_id "PMC4908318" = "PMC4908318"`. -/
theorem detection_full_consumption :
    (∀ (s : Scheme) (t r : List Char), schemeRaw s t = some r →
      ∃ p, p ∈ stripsOf s ∧ dropPrefCI p t = some r ∧ grammarOf s r = true) ∧
    detected_id "PMCID; PMC4908318".data = [] ∧
    detected_id "PMC4908318".data = "PMC4908318".data := by
  refine ⟨?_, by decide, by decide⟩
  intro s t r h
  exact matchWith_sound (stripsOf s) (grammarOf s) t r h

/-- C2 witness: the bare PMCID is consumed through the empty wrapping. -/
theorem detection_full_consumption_witness :
    ∃ p, p ∈ stripsOf Scheme.pmcid ∧
      dropPrefCI p "PMC4908318".data = some "PMC4908318".data ∧
      grammarOf Scheme.pmcid "PMC4908318".data = true :=
  detection_full_consumption.1 Scheme.pmcid "PMC4908318".data
    "PMC4908318".data (by rfl)

/-- C3: `detected_id` strips known URL-host wrappings and returns the bare
canonical identifier for the ORCID, DOI and ROR sample inputs. -/
theorem url_host_stripping :
    detected_id "http://orcid.org/0000-0001-9105-5960".data =
      "0000-0001-9105-5960".data ∧
    detected_id "https://doi.org/10.5281/zenodo.1095472".data =
      "10.5281/zenodo.1095472".data ∧
    detected_id "https://ror.org/027m9bs27".data = "027m9bs27".data := by
  decide

/-- C4: on any input whose match set holds more than one scheme,
`recognized_scheme` returns a matching scheme of least priority rank under
the fixed order doi, arxiv, pmcid, orcid, ror, isbn, pmid (determinism is
intrinsic: the engine is a pure function); in particular 26861819 resolves
to pmid and 9780898714128 to isbn. -/
theorem ambiguity_priority_order :
    (∀ c : List Char, 1 < (recognizeSet c).length →
      ∃ r, recognized_scheme c = some r ∧ r ∈ recognizeSet c ∧
        ∀ s ∈ recognizeSet c, priorityIdx r ≤ priorityIdx s) ∧
    recognized_scheme "26861819".data = some Scheme.pmid ∧
    recognized_scheme "9780898714128".data = some Scheme.isbn := by
  refine ⟨?_, by decide, by decide⟩
  intro c hlen
  have hpair : (recognizeSet c).Pairwise (fun a b => priorityIdx a ≤ priorityIdx b) := by
    have hP : priorityList.Pairwise (fun a b => priorityIdx a ≤ priorityIdx b) := by
      decide
    exact List.Pairwise.sublist (List.filter_sublist _) hP
  cases hset : recognizeSet c with
  | nil => rw [hset] at hlen; simp at hlen
  | cons r rest =>
    rw [hset] at hpair
    refine ⟨r, ?_, ?_, ?_⟩
    · unfold recognized_scheme
      rw [hset]
      rfl
    · exact List.mem_cons_self _ _
    · intro s hs
      rcases List.mem_cons.mp hs with h | h
      · subst h
        exact Nat.le_refl _
      · exact List.rel_of_pairwise_cons hpair h

/-- C4 witness: 9780898714128 matches both isbn and pmid, and the returned
scheme has least priority rank in the match set. -/
theorem ambiguity_priority_order_witness :
    ∃ r, recognized_scheme "9780898714128".data = some r ∧
      r ∈ recognizeSet "9780898714128".data ∧
      ∀ s ∈ recognizeSet "9780898714128".data, priorityIdx r ≤ priorityIdx s :=
  ambiguity_priority_order.1 "9780898714128".data (by decide)

/-- C5: normalization is idempotent: whenever `normalize` succeeds, running
it again on the canonical output returns that output unchanged; and the
already-canonical DOI sample passes through `detected_id` unchanged. -/
theorem normalization_idempotent :
    (∀ (s : Scheme) (i o : List Char), normalize s i = Except.ok o →
      normalize s o = Except.ok o) ∧
    detected_id "10.1088/0264-9381/26/22/225003".data =
      "10.1088/0264-9381/26/22/225003".data := by
  refine ⟨?_, by decide⟩
  intro s i o h
  cases hr : schemeRaw s i with
  | none =>
    rw [normalize_of_raw_none s i hr] at h
    exact absurd h (by simp)
  | some r =>
    rw [normalize_of_raw s i r hr] at h
    injection h with h
    subst h
    obtain ⟨p, hp, hdp, hg⟩ :=
      matchWith_sound (stripsOf s) (grammarOf s) i r hr
    have h2 : schemeRaw s (post s r) = some (post s r) :=
      schemeRaw_of_grammar s _ (grammar_post s r hg)
    rw [normalize_of_raw s _ _ h2, post_post]

/-- C5 witness: normalizing a label-wrapped DOI and then normalizing its
canonical output returns the canonical output unchanged. -/
theorem normalization_idempotent_witness :
    normalize Scheme.doi "10.1088/0264-9381/26/22/225003".data =
      Except.ok "10.1088/0264-9381/26/22/225003".data :=
  normalization_idempotent.1 Scheme.doi
    "doi:10.1088/0264-9381/26/22/225003".data
    "10.1088/0264-9381/26/22/225003".data (by rfl)

/-- C6: a scheme-specific normalizer fails with `MalformedIdentifier`
exactly on candidates that do not fully match the scheme, this is its only
failure, and detection itself never fails: an unrecognized candidate gets
the empty-string sentinel. -/
theorem normalize_malformed_only_failure :
    (∀ (s : Scheme) (t : List Char), schemeMatches s t = false →
      normalize s t = Except.error IdError.MalformedIdentifier) ∧
    (∀ (s : Scheme) (t o : List Char), normalize s t = Except.ok o →
      schemeMatches s t = true) ∧
    (∀ c : List Char, recognized_scheme c = none → detected_id c = []) := by
  refine ⟨?_, ?_, ?_⟩
  · intro s t h
    cases hr : schemeRaw s t with
    | none => exact normalize_of_raw_none s t hr
    | some r =>
      unfold schemeMatches at h
      rw [hr] at h
      simp at h
  · intro s t o h
    cases hr : schemeRaw s t with
    | none =>
      rw [normalize_of_raw_none s t hr] at h
      exact absurd h (by simp)
    | some r =>
      unfold schemeMatches
      rw [hr]
      rfl
  · intro c h
    unfold detected_id
    rw [h]

/-- C6 witness: a plain word is rejected by the DOI normalizer with the
`MalformedIdentifier` condition. -/
theorem normalize_malformed_only_failure_witness :
    normalize Scheme.doi "hello".data =
      Except.error IdError.MalformedIdentifier :=
  normalize_malformed_only_failure.1 Scheme.doi "hello".data (by rfl)

/-- C7: an input that is not a recognized identifier yields the sentinel:
`recognized_scheme` returns `none` and `detected_id` returns the empty
string, as on "not an id at all". -/
theorem unrecognized_returns_sentinel :
    (∀ c : List Char, recognized_scheme c = none → detected_id c = []) ∧
    recognized_scheme "not an id at all".data = none ∧
    detected_id "not an id at all".data = [] := by
  refine ⟨?_, by decide, by decide⟩
  intro c h
  unfold detected_id
  rw [h]

/-- C7 witness: an unrecognized three-letter input gets the empty sentinel. -/
theorem unrecognized_returns_sentinel_witness :
    detected_id "zzz".data = [] :=
  unrecognized_returns_sentinel.1 "zzz".data (by decide)

/-- C8: PMCID normalization is case-insensitive on the three-letter label
and canonicalizes to uppercase PMC followed by the digits; in particular
`normalize_pmcid "pmc4908318" = "PMC4908318"`. -/
theorem pmcid_normalization_case_insensitive :
    (∀ (a b c : Char) (ds : List Char), a.toLower = 'p' → b.toLower = 'm' →
      c.toLower = 'c' → ds ≠ [] → ds.all Char.isDigit = true →
      normalize_pmcid (a :: b :: c :: ds) =
        Except.ok ('P' :: 'M' :: 'C' :: ds)) ∧
    normalize_pmcid "pmc4908318".data = Except.ok "PMC4908318".data := by
  refine ⟨?_, by rfl⟩
  intro a b c ds h1 h2 h3 h4 h5
  have hne : ds.isEmpty = false := by
    cases ds with
    | nil => exact absurd rfl h4
    | cons d dt => rfl
  have hg : grammarOf Scheme.pmcid (a :: b :: c :: ds) = true := by
    simp only [grammarOf, pmcidGrammar, Bool.and_eq_true, beq_iff_eq]
    exact ⟨⟨⟨⟨h1, h2⟩, h3⟩, by rw [hne]; rfl⟩, h5⟩
  have hraw : schemeRaw Scheme.pmcid (a :: b :: c :: ds) =
      some (a :: b :: c :: ds) :=
    schemeRaw_of_grammar _ _ hg
  show normalize Scheme.pmcid (a :: b :: c :: ds) = _
  rw [normalize_of_raw _ _ _ hraw]
  rfl

/-- C8 witness: a mixed-case label normalizes to the uppercase canonical
form. -/
theorem pmcid_normalization_case_insensitive_witness :
    normalize_pmcid ('p' :: 'M' :: 'c' :: ['4']) =
      Except.ok ('P' :: 'M' :: 'C' :: ['4']) :=
  pmcid_normalization_case_insensitive.1 'p' 'M' 'c' ['4'] (by rfl) (by rfl)
    (by rfl) (by decide) (by rfl)

/-- C9: the per-scheme convenience predicate agrees with membership in the
registry's match set, and in particular `contains_pmcid` holds on every
input `recognized_scheme` classifies as pmcid. -/
theorem contains_matches_recognize :
    (∀ (s : Scheme) (c : List Char),
      containsScheme s c = true ↔ s ∈ recognizeSet c) ∧
    (∀ c : List Char, recognized_scheme c = some Scheme.pmcid →
      contains_pmcid c = true) := by
  have key : ∀ (s : Scheme) (c : List Char),
      containsScheme s c = true ↔ s ∈ recognizeSet c := by
    intro s c
    constructor
    · intro h
      exact List.mem_filter.mpr ⟨mem_priorityList s, h⟩
    · intro h
      exact (List.mem_filter.mp h).2
  refine ⟨key, ?_⟩
  intro c h
  unfold recognized_scheme at h
  cases hset : recognizeSet c with
  | nil => rw [hset] at h; simp at h
  | cons x xs =>
    rw [hset] at h
    simp only [List.head?] at h
    injection h with h
    subst h
    exact (key Scheme.pmcid c).mpr (by rw [hset]; exact List.mem_cons_self _ _)

/-- C9 witness: the bare PMCID sample is classified as pmcid, hence
`contains_pmcid` holds on it. -/
theorem contains_matches_recognize_witness :
    contains_pmcid "PMC4908318".data = true :=
  contains_matches_recognize.2 "PMC4908318".data (by decide)

/-- C10: every exception class the program defines (GitHubError,
InvenioRDMError, MissingData, InternalError) is a subclass of the single
base class IGAException, itself a subclass of the builtin Exception, and a
foreign direct subclass of Exception is not an IGAException. -/
theorem exception_hierarchy :
    isSubclassOf PyClass.GitHubError PyClass.IGAException = true ∧
    isSubclassOf PyClass.InvenioRDMError PyClass.IGAException = true ∧
    isSubclassOf PyClass.MissingData PyClass.IGAException = true ∧
    isSubclassOf PyClass.InternalError PyClass.IGAException = true ∧
    isSubclassOf PyClass.IGAException PyClass.Exc = true ∧
    isSubclassOf PyClass.GitHubError PyClass.Exc = true ∧
    isSubclassOf PyClass.InvenioRDMError PyClass.Exc = true ∧
    isSubclassOf PyClass.MissingData PyClass.Exc = true ∧
    isSubclassOf PyClass.InternalError PyClass.Exc = true ∧
    isSubclassOf PyClass.ForeignError PyClass.IGAException = false := by
  decide

end IGA
